import Mathlib

/-!
Shallow embedding of the Pico Light Orchestra firmware (`src/main.py`):
light calibration and smoothing, the pitch mapper, the single-tone player,
the melody sequencer's frame loop, and the three mutating command handlers
(`/tone`, `/melody`, `/stop`).

Modelling conventions:
* MicroPython floats are idealised as exact rationals `ℚ`; the transcendental
  pitch formula (`2 ** x`, `sin`) lives in `ℝ`.
* Python `int(x)` (truncation toward zero) is `pytrunc` / `pytruncR`.
* The buzzer PWM is modelled by a trace of `BuzzEvent`s, in the order the
  code issues `buzzer_pin.freq` / `buzzer_pin.duty_u16` calls.
* Module-level mutable state (`note_queue`, `stop_now`, `_norm_prev`) is
  passed explicitly; async suspension points where a cancellation or an
  external `stop_now.set()` can land are modelled by boolean inputs telling
  whether the signal is observed there.
-/

namespace PicoOrchestra

/-! ## Constants from `main.py` -/

def FRAME_MS : ℤ := 10

def TRANSPOSE_MIN : ℚ := -7

def TRANSPOSE_MAX : ℚ := 7

def VIBRATO_HZ : ℚ := 6

def VIBRATO_DEPTH_MIN : ℚ := 0

def VIBRATO_DEPTH_MAX : ℚ := 2/100

def NORM_ALPHA : ℚ := 20/100

/-- Calibration configuration: the module-level `LIGHT_*` constants,
made a parameter so degenerate calibrations can be stated. -/
structure Calib where
  min_raw : ℤ
  max_raw : ℤ
  invert : Bool
  gamma : ℚ
deriving Repr

/-- The shipped calibration (`LIGHT_MIN_RAW = 1896`, `LIGHT_MAX_RAW = 65467`,
`LIGHT_INVERT = True`, `LIGHT_GAMMA = 1.0`). -/
def CALIB : Calib := ⟨1896, 65467, true, 1⟩

/-! ## Python numeric helpers -/

/-- Python `int(x)` on a float: truncation toward zero. -/
def pytrunc (x : ℚ) : ℤ :=
  if x < 0 then -⌊-x⌋ else ⌊x⌋

/-! ## Light normalization (`_clamp`, `light_raw_to_norm`, `_map`) -/

def _clamp (v lo hi : ℤ) : ℤ :=
  if v < lo then lo else if v > hi then hi else v

/-- `lin ** g` from `light_raw_to_norm`, where `g` is the positive-guarded
gamma.  Real exponentiation is specialised to the natural power by the
numerator of `g`, which is exact whenever gamma is integer-valued — in
particular for the shipped `LIGHT_GAMMA = 1.0`, the only gamma any claim
evaluates (`lin ** 1.0 = lin`). -/
def applyGamma (gamma lin : ℚ) : ℚ :=
  let g := if gamma > 0 then gamma else 1
  lin ^ g.num.toNat

def light_raw_to_norm (c : Calib) (raw : ℤ) : ℚ :=
  let raw' := _clamp raw c.min_raw c.max_raw
  let span := c.max_raw - c.min_raw
  if span ≤ 0 then 0
  else
    let lin : ℚ := ((raw' : ℚ) - (c.min_raw : ℚ)) / (span : ℚ)
    let lin' := if c.invert then 1 - lin else lin
    applyGamma c.gamma lin'

/-- `_map(val, a0, a1, b0, b1)`: linear map of `val ∈ [a0,a1]` onto `[b0,b1]`
with the fraction clamped to `[0,1]`; returns `b0` on an empty input
interval. -/
def _map (val a0 a1 b0 b1 : ℚ) : ℚ :=
  if a1 = a0 then b0
  else
    let f := (val - a0) / (a1 - a0)
    let f' := if f < 0 then 0 else f
    let f'' := if f' > 1 then 1 else f'
    b0 + f'' * (b1 - b0)

/-- The brightness→transpose mapping used by `light_to_pitch_params`:
`_map(norm, 0.0, 1.0, TRANSPOSE_MIN, TRANSPOSE_MAX)`. -/
def transpose_of (b : ℚ) : ℚ :=
  _map b 0 1 TRANSPOSE_MIN TRANSPOSE_MAX

/-- The brightness→vibrato-depth mapping used by `light_to_pitch_params`:
`_map(norm, 0.0, 1.0, VIBRATO_DEPTH_MIN, VIBRATO_DEPTH_MAX)`. -/
def vib_depth_of (b : ℚ) : ℚ :=
  _map b 0 1 VIBRATO_DEPTH_MIN VIBRATO_DEPTH_MAX

/-- One call of `light_to_pitch_params()`: the global `_norm_prev` becomes an
explicit `Option ℚ` in/out parameter, the ADC read an explicit `raw` input.
Returns `(transpose, vib_depth, new _norm_prev)`. -/
def light_to_pitch_params (np : Option ℚ) (raw : ℤ) : ℚ × ℚ × ℚ :=
  let norm := light_raw_to_norm CALIB raw
  let norm' :=
    match np with
    | none => norm
    | some p => NORM_ALPHA * norm + (1 - NORM_ALPHA) * p
  (transpose_of norm', vib_depth_of norm', norm')

/-! ## Buzzer trace model -/

/-- A call into the actuator driver: `buzzer_pin.freq(f)` or
`buzzer_pin.duty_u16(d)` (`stop_tone()` is `setDuty 0`). -/
inductive BuzzEvent where
  | setFreq (f : ℤ)
  | setDuty (d : ℤ)
deriving DecidableEq, Repr

/-- The duty value last written by a trace, if any. -/
def finalDuty : List BuzzEvent → Option ℤ
  | [] => none
  | BuzzEvent.setFreq _ :: rest => finalDuty rest
  | BuzzEvent.setDuty d :: rest =>
      match finalDuty rest with
      | none => some d
      | some d' => some d'

/-- Number of `setFreq` (tone-driving) events in a trace. -/
def drives : List BuzzEvent → ℕ
  | [] => 0
  | BuzzEvent.setFreq _ :: rest => drives rest + 1
  | BuzzEvent.setDuty _ :: rest => drives rest

/-! ## Single-tone player (`play_tone_once`, `stop_tone`) -/

inductive ToneOutcome where
  | completed
  | cancelled
deriving DecidableEq, Repr

/-- `int(duty * 65535)` clamped to `[0, 65535]`, as in `play_tone_once`. -/
def duty_u16_of (duty : ℚ) : ℤ :=
  let u16 := pytrunc (duty * 65535)
  let u16' := if u16 < 0 then 0 else u16
  if u16' > 65535 then 65535 else u16'

/-- One run of `play_tone_once(freq, ms, duty)`.  Its only suspension point
is the `await asyncio.sleep(ms / 1000)` inside the audible branch;
`cancelAtSleep` says whether a cancellation lands there.  The result is the
buzzer trace (all of it emitted before the coroutine finishes — the
`except CancelledError` handler runs `stop_tone()` *before* re-raising)
together with how the task ends. -/
def play_tone_once (freq ms : ℤ) (duty : ℚ) (cancelAtSleep : Bool) :
    List BuzzEvent × ToneOutcome :=
  if freq > 0 ∧ ms > 0 ∧ duty > 0 then
    let pre := [BuzzEvent.setFreq freq, BuzzEvent.setDuty (duty_u16_of duty)]
    if cancelAtSleep then
      (pre ++ [BuzzEvent.setDuty 0], ToneOutcome.cancelled)
    else
      (pre ++ [BuzzEvent.setDuty 0], ToneOutcome.completed)
  else
    -- no suspension point before `stop_tone()`: the body runs atomically
    ([BuzzEvent.setDuty 0], ToneOutcome.completed)

/-! ## Melody sequencer (`melody_player`) -/

/-- Python `int(x)` on a real (truncation toward zero). -/
noncomputable def pytruncR (x : ℝ) : ℤ :=
  if x < 0 then -⌊-x⌋ else ⌊x⌋

/-- The per-frame frequency computed inside `melody_player`:
`int(max(1, base_freq * trans_mult * (1.0 + vib)))` with
`trans_mult = 2.0 ** (transpose / 12.0)` and
`vib = sin(2π * VIBRATO_HZ * t) * vib_depth` inlined. -/
noncomputable def f_now (base_freq : ℤ) (transpose vib_depth t : ℚ) : ℤ :=
  pytruncR (max 1 ((base_freq : ℝ) * (2 : ℝ) ^ ((transpose : ℝ) / 12) *
    (1 + Real.sin (2 * Real.pi * ((VIBRATO_HZ : ℚ) : ℝ) * ((t : ℚ) : ℝ)) * ((vib_depth : ℚ) : ℝ))))

/-- The `while remaining > 0` frame loop of `melody_player` for one audible
note.  `rem` is `remaining` (clipped at 0, which the loop condition cannot
distinguish), `i` the number of frames already played (so `t = i / 100` and
the `i`-th ADC read is `raws i`), `np` the current `_norm_prev`, and
`stopFrame i` whether `stop_now.is_set()` holds at the `i`-th top-of-loop
check.  Returns the buzzer events of the loop body. -/
noncomputable def note_loop (base_freq : ℤ) (raws : ℕ → ℤ) (stopFrame : ℕ → Bool) :
    ℕ → ℕ → Option ℚ → List BuzzEvent
  | 0, _, _ => []
  | rem + 1, i, np =>
    if stopFrame i then []
    else
      let p := light_to_pitch_params np (raws i)
      BuzzEvent.setFreq (f_now base_freq p.1 p.2.1 ((i : ℚ) / 100)) ::
      BuzzEvent.setDuty 32768 ::
      note_loop base_freq raws stopFrame (rem + 1 - FRAME_MS.toNat) (i + 1) (some p.2.2)
  termination_by rem => rem
  decreasing_by simp [FRAME_MS]; omega

/-- One iteration of `melody_player`'s `while True` body, after
`await note_queue.get()` returned `(freq, ms, gap)`.  `stopTop` is
`stop_now.is_set()` at the post-`get` check, `stopFrame` the per-frame
checks, `stopAfter` the check guarding the gap sleep. -/
noncomputable def melody_entry (freq ms gap : ℤ) (raws : ℕ → ℤ)
    (stopTop : Bool) (stopFrame : ℕ → Bool) (stopAfter : Bool)
    (np : Option ℚ) : List BuzzEvent :=
  if stopTop then [BuzzEvent.setDuty 0]
  else
    (if freq > 0 ∧ ms > 0 then
       note_loop freq raws stopFrame ms.toNat 0 np ++ [BuzzEvent.setDuty 0]
     else
       [BuzzEvent.setDuty 0]) ++
    (if ¬ stopAfter ∧ gap > 0 then [] else [BuzzEvent.setDuty 0])

/-! ## Command handlers (`handle_request` routes) -/

/-- Shared mutable playback state observed by the handlers:
the melody queue of `(freq, ms, gap_ms)` entries and the `stop_now` event. -/
structure SysState where
  queue : List (ℤ × ℤ × ℤ)
  stop_now : Bool
deriving DecidableEq, Repr

/-- The JSON body of the `/tone` response. -/
structure ToneResp where
  playing : Bool
  until_ms_from_now : ℤ
deriving DecidableEq, Repr

/-- Duty clamping in the `/tone` handler. -/
def clampDuty (d : ℚ) : ℚ :=
  let d' := if d < 0 then 0 else d
  if d' > 1 then 1 else d'

/-- The `POST /tone` route, after JSON parsing: cancel-and-await any prior
tone task, `stop_now.set()`, drain the queue with `get_nowait`, then
schedule `play_tone_once(freq, ms, duty)`.  Returns the response body, the
new shared state, and the arguments of the scheduled tone task. -/
def tone_handler (freq ms : ℤ) (duty : ℚ) (_s : SysState) :
    ToneResp × SysState × (ℤ × ℤ × ℚ) :=
  let duty' := clampDuty duty
  (⟨decide (freq > 0 ∧ ms > 0 ∧ duty' > 0), ms⟩,
   ⟨[], true⟩,
   (freq, ms, duty'))

/-- One element of the parsed `notes` array of a `/melody` body: either a
JSON object (with its `freq`/`ms` fields, defaulted to 0) or any other JSON
value, which the `isinstance(n, dict)` check skips. -/
inductive NoteJson where
  | dict (freq ms : ℤ)
  | other
deriving DecidableEq, Repr

/-- Whether the `/melody` handler enqueues this element: a dict with
`ms > 0`. -/
def NoteJson.valid : NoteJson → Bool
  | NoteJson.dict _ ms => decide (ms > 0)
  | NoteJson.other => false

/-- The queue entry built from a dict element of `notes`:
`(int(n.get("freq", 0)), int(n.get("ms", 0)), gap_ms)`. -/
def NoteJson.entry (gap_ms : ℤ) : NoteJson → ℤ × ℤ × ℤ
  | NoteJson.dict freq ms => (freq, ms, gap_ms)
  | NoteJson.other => (0, 0, gap_ms)

/-- The `for n in notes` loop of the `/melody` handler: the entries put on
the queue, in order. -/
def melody_filter (gap_ms : ℤ) (notes : List NoteJson) : List (ℤ × ℤ × ℤ) :=
  notes.filterMap fun n =>
    match n with
    | NoteJson.dict freq ms => if ms > 0 then some (freq, ms, gap_ms) else none
    | NoteJson.other => none

/-- The `POST /melody` route, after JSON parsing: append each dict entry
with `ms > 0` to the queue together with the shared `gap_ms`, clear
`stop_now` if it was set, and report the count queued. -/
def melody_handler (notes : List NoteJson) (gap_ms : ℤ) (s : SysState) :
    ℤ × SysState :=
  (((melody_filter gap_ms notes).length : ℤ),
   ⟨s.queue ++ melody_filter gap_ms notes, false⟩)

/-- The `POST /stop` route: cancel-and-await any prior tone task,
`stop_now.set()`, drain the queue counting cleared entries, then
`stop_tone()`.  Returns the `cleared` count of the response body, the new
shared state, and the buzzer events the handler itself issues. -/
def stop_handler (s : SysState) : ℤ × SysState × List BuzzEvent :=
  ((s.queue.length : ℤ), ⟨[], true⟩, [BuzzEvent.setDuty 0])

/-! ## Spec-side companion definitions (for refinement claims) -/

/-- From the spec's words: `f' = max(1, base_freq * 2^(transpose/12) *
(1 + vibrato_depth * sin(2π * vibrato_hz * t)))`. -/
noncomputable def spec_frame_freq (base_freq : ℤ) (transpose vib_depth t : ℚ) : ℝ :=
  max 1 ((base_freq : ℝ) * (2 : ℝ) ^ ((transpose : ℝ) / 12) *
    (1 + ((vib_depth : ℚ) : ℝ) * Real.sin (2 * Real.pi * ((VIBRATO_HZ : ℚ) : ℝ) * ((t : ℚ) : ℝ))))

/-- From the spec's words, the framed per-note loop: while elapsed <
duration_ms, recompute PitchParams from the current smoothed brightness each
frame, drive the actuator at the frequency `f'` (an integral number of Hz)
and at a fixed duty, breaking early if the CancellationSignal is set. -/
noncomputable def spec_note_loop (base_freq : ℤ) (raws : ℕ → ℤ) (stopFrame : ℕ → Bool) :
    ℕ → ℕ → Option ℚ → List BuzzEvent
  | 0, _, _ => []
  | rem + 1, i, np =>
    if stopFrame i then []
    else
      let p := light_to_pitch_params np (raws i)
      BuzzEvent.setFreq ⌊spec_frame_freq base_freq p.1 p.2.1 ((i : ℚ) / 100)⌋ ::
      BuzzEvent.setDuty 32768 ::
      spec_note_loop base_freq raws stopFrame (rem + 1 - FRAME_MS.toNat) (i + 1) (some p.2.2)
  termination_by rem => rem
  decreasing_by simp [FRAME_MS]; omega

/-! ## Helper lemmas -/

lemma transpose_of_eq (b : ℚ) (h0 : 0 ≤ b) (h1 : b ≤ 1) :
    transpose_of b = -7 + 14 * b := by
  simp only [transpose_of, _map, TRANSPOSE_MIN, TRANSPOSE_MAX]
  rw [if_neg (by norm_num : (1 : ℚ) ≠ 0)]
  have e : (b - 0) / (1 - 0) = b := by norm_num
  rw [e, if_neg (not_lt.mpr h0), if_neg (not_lt.mpr h1)]
  ring

lemma clampDuty_pos_iff (d : ℚ) : clampDuty d > 0 ↔ d > 0 := by
  simp only [clampDuty]
  split_ifs <;> constructor <;> intro h <;> linarith

/-! ## Claim theorems -/

/-- C7: `normalize` saturates — for every raw below `min_raw` the result
equals `normalize(min_raw)`, for every raw above `max_raw` it equals
`normalize(max_raw)`; with the shipped calibration (`min_raw = 1896`,
`max_raw = 65467`, `invert = true`, `gamma = 1.0`), `normalize(1896) = 1.0`
and `normalize(65467) = 0.0`. -/
theorem normalize_saturates :
    (∀ (c : Calib) (raw : ℤ), raw < c.min_raw →
        light_raw_to_norm c raw = light_raw_to_norm c c.min_raw)
    ∧ (∀ (c : Calib) (raw : ℤ), raw > c.max_raw →
        light_raw_to_norm c raw = light_raw_to_norm c c.max_raw)
    ∧ light_raw_to_norm CALIB 1896 = 1
    ∧ light_raw_to_norm CALIB 65467 = 0 := by
  refine ⟨?_, ?_, ?_, ?_⟩
  · intro c raw h
    by_cases hspan : c.max_raw - c.min_raw ≤ 0
    · simp [light_raw_to_norm, hspan]
    · have hlt : c.min_raw < c.max_raw := by omega
      simp only [light_raw_to_norm, _clamp]
      rw [if_pos h, if_neg (lt_irrefl c.min_raw),
        if_neg (by omega : ¬ c.min_raw > c.max_raw)]
  · intro c raw h
    by_cases hspan : c.max_raw - c.min_raw ≤ 0
    · simp [light_raw_to_norm, hspan]
    · simp only [light_raw_to_norm, _clamp]
      rw [if_neg (by omega : ¬ raw < c.min_raw), if_pos h,
        if_neg (by omega : ¬ c.max_raw < c.min_raw),
        if_neg (lt_irrefl c.max_raw)]
  · norm_num [light_raw_to_norm, _clamp, applyGamma, CALIB]
  · norm_num [light_raw_to_norm, _clamp, applyGamma, CALIB]

/-- C7 witness at `raw = 0 < min_raw` and `raw = 70000 > max_raw`. -/
theorem normalize_saturates_witness :
    ((0 : ℤ) < CALIB.min_raw
      ∧ light_raw_to_norm CALIB 0 = light_raw_to_norm CALIB CALIB.min_raw)
    ∧ ((70000 : ℤ) > CALIB.max_raw
      ∧ light_raw_to_norm CALIB 70000 = light_raw_to_norm CALIB CALIB.max_raw) :=
  ⟨⟨by decide, normalize_saturates.1 CALIB 0 (by decide)⟩,
   ⟨by decide, normalize_saturates.2.1 CALIB 70000 (by decide)⟩⟩

/-- C8: for brightness `b ∈ [0,1]` the transpose mapping is monotone
non-decreasing, its result lies in `[TRANSPOSE_MIN, TRANSPOSE_MAX]`, and it
hits the endpoints: `transpose(0) = TRANSPOSE_MIN`,
`transpose(1) = TRANSPOSE_MAX`. -/
theorem transpose_map_spec :
    (∀ b1 b2 : ℚ, 0 ≤ b1 → b1 ≤ b2 → b2 ≤ 1 →
        transpose_of b1 ≤ transpose_of b2)
    ∧ (∀ b : ℚ, 0 ≤ b → b ≤ 1 →
        TRANSPOSE_MIN ≤ transpose_of b ∧ transpose_of b ≤ TRANSPOSE_MAX)
    ∧ transpose_of 0 = TRANSPOSE_MIN
    ∧ transpose_of 1 = TRANSPOSE_MAX := by
  refine ⟨?_, ?_, ?_, ?_⟩
  · intro b1 b2 h0 h12 h21
    rw [transpose_of_eq b1 h0 (le_trans h12 h21),
      transpose_of_eq b2 (le_trans h0 h12) h21]
    linarith
  · intro b h0 h1
    rw [transpose_of_eq b h0 h1]
    constructor <;> simp only [TRANSPOSE_MIN, TRANSPOSE_MAX] <;> linarith
  · rw [transpose_of_eq 0 le_rfl zero_le_one]
    norm_num [TRANSPOSE_MIN]
  · rw [transpose_of_eq 1 zero_le_one le_rfl]
    norm_num [TRANSPOSE_MAX]

/-- C8 witness at `b1 = 0`, `b2 = 1`. -/
theorem transpose_map_spec_witness :
    ((0 : ℚ) ≤ 0 ∧ (0 : ℚ) ≤ 1 ∧ (1 : ℚ) ≤ 1
      ∧ transpose_of 0 ≤ transpose_of 1)
    ∧ (TRANSPOSE_MIN ≤ transpose_of 1 ∧ transpose_of 1 ≤ TRANSPOSE_MAX) :=
  ⟨⟨le_refl 0, zero_le_one, le_refl 1,
    transpose_map_spec.1 0 1 (le_refl 0) zero_le_one (le_refl 1)⟩,
   transpose_map_spec.2.1 1 zero_le_one (le_refl 1)⟩

/-- C10: the brightness pipeline is total under degenerate calibration —
`light_raw_to_norm` returns `0.0` for every raw input whenever
`max_raw - min_raw ≤ 0`, and `_map` returns its lower output bound `b0`
whenever the input interval is empty (`a1 = a0`), so neither guarded
division is ever reached with a zero denominator. -/
theorem degenerate_calibration_total :
    (∀ (c : Calib) (raw : ℤ), c.max_raw - c.min_raw ≤ 0 →
        light_raw_to_norm c raw = 0)
    ∧ (∀ val a0 b0 b1 : ℚ, _map val a0 a0 b0 b1 = b0) := by
  constructor
  · intro c raw h
    simp [light_raw_to_norm, h]
  · intro val a0 b0 b1
    simp [_map]

/-- C10 witness on a collapsed calibration (`min_raw = max_raw = 5`) and an
empty `_map` interval. -/
theorem degenerate_calibration_total_witness :
    ((Calib.mk 5 5 true 1).max_raw - (Calib.mk 5 5 true 1).min_raw ≤ 0
      ∧ light_raw_to_norm (Calib.mk 5 5 true 1) 7 = 0)
    ∧ _map 3 2 2 (-7) 7 = -7 :=
  ⟨⟨by decide, degenerate_calibration_total.1 (Calib.mk 5 5 true 1) 7 (by decide)⟩,
   degenerate_calibration_total.2 3 2 (-7) 7⟩

/-- C1: whenever a running `play_tone_once` task is cancelled (its only
suspension point is the `await asyncio.sleep`), the buzzer duty is set to 0
before the cancellation is reported complete: the trace — emitted in full
before the outcome — ends by writing duty 0. -/
theorem play_tone_cancel_silences :
    ∀ (freq ms : ℤ) (duty : ℚ) (c : Bool),
      (play_tone_once freq ms duty c).2 = ToneOutcome.cancelled →
      finalDuty (play_tone_once freq ms duty c).1 = some 0 := by
  intro freq ms duty c h
  unfold play_tone_once at h ⊢
  split_ifs at h ⊢
  all_goals simp_all [finalDuty]

/-- C1 witness: cancellation landing in the sleep of an audible tone. -/
theorem play_tone_cancel_silences_witness :
    (play_tone_once 440 300 1 true).2 = ToneOutcome.cancelled
    ∧ finalDuty (play_tone_once 440 300 1 true).1 = some 0 :=
  ⟨by simp [play_tone_once],
   play_tone_cancel_silences 440 300 1 true (by simp [play_tone_once])⟩

/-- C9: `play_tone_once` always finishes with the buzzer duty written to 0,
audible or not, cancelled or not; an inaudible request (such as `freq = 0`)
runs straight to `stop_tone()` and completes, and the `/tone` handler
schedules exactly such a task rather than rejecting the request. -/
theorem play_tone_always_silences :
    (∀ (freq ms : ℤ) (duty : ℚ) (c : Bool),
        finalDuty (play_tone_once freq ms duty c).1 = some 0)
    ∧ (∀ (ms : ℤ) (duty : ℚ) (c : Bool),
        play_tone_once 0 ms duty c = ([BuzzEvent.setDuty 0], ToneOutcome.completed))
    ∧ (∀ (ms : ℤ) (duty : ℚ) (s : SysState),
        (tone_handler 0 ms duty s).2.2 = (0, ms, clampDuty duty)) := by
  refine ⟨?_, ?_, ?_⟩
  · intro freq ms duty c
    unfold play_tone_once
    split_ifs <;> simp [finalDuty]
  · intro ms duty c
    unfold play_tone_once
    rw [if_neg]
    rintro ⟨h, -⟩
    exact absurd h (by norm_num)
  · intro ms duty s
    rfl

/-- C4: the `/tone` handler reports `playing = (freq > 0 ∧ ms > 0 ∧
duty > 0)` and `until_ms_from_now = ms` for every request, and the tone
task it schedules ends with the duty back at 0; in particular
`playTone(440, 300, 0.5)` reports `playing = true`,
`until_ms_from_now = 300` and its uncancelled run ends in `duty_u16(0)`. -/
theorem tone_response_spec :
    (∀ (freq ms : ℤ) (duty : ℚ) (s : SysState),
        (tone_handler freq ms duty s).1.playing = decide (freq > 0 ∧ ms > 0 ∧ duty > 0)
        ∧ (tone_handler freq ms duty s).1.until_ms_from_now = ms
        ∧ finalDuty (play_tone_once freq ms (clampDuty duty) false).1 = some 0)
    ∧ (tone_handler 440 300 (1/2) ⟨[], false⟩).1 = ⟨true, 300⟩
    ∧ (play_tone_once 440 300 (1/2) false).1
        = [BuzzEvent.setFreq 440, BuzzEvent.setDuty 32767, BuzzEvent.setDuty 0] := by
  refine ⟨?_, ?_, ?_⟩
  · intro freq ms duty s
    refine ⟨?_, rfl, ?_⟩
    · show decide (freq > 0 ∧ ms > 0 ∧ clampDuty duty > 0) = _
      simp only [decide_eq_decide]
      exact and_congr_right fun _ => and_congr_right fun _ => clampDuty_pos_iff duty
    · unfold play_tone_once
      split_ifs <;> simp [finalDuty]
  · show (⟨decide _, _⟩ : ToneResp) = _
    norm_num [clampDuty]
  · norm_num [play_tone_once, duty_u16_of, pytrunc]

lemma melody_filter_eq (gap : ℤ) (notes : List NoteJson) :
    melody_filter gap notes
      = (notes.filter NoteJson.valid).map (NoteJson.entry gap) := by
  induction notes with
  | nil => rfl
  | cons n rest ih =>
    cases n with
    | dict f m =>
      by_cases hm : m > 0 <;>
        simp [melody_filter, List.filterMap_cons, List.filter_cons,
          NoteJson.valid, NoteJson.entry, hm, ← ih]
    | other =>
      simp [melody_filter, List.filterMap_cons, List.filter_cons,
        NoteJson.valid, ← ih]

lemma melody_filter_length_all_valid (gap : ℤ) (notes : List NoteJson)
    (h : ∀ n ∈ notes, n.valid = true) :
    (melody_filter gap notes).length = notes.length := by
  rw [melody_filter_eq, List.length_map, List.filter_eq_self.mpr h]

/-- C5: the `/melody` handler appends exactly the dict entries with
`ms > 0` (others silently skipped), each paired with the shared `gap_ms`,
clears `stop_now`, and reports the count actually queued; in particular
`notes = [{freq:523, ms:200}, {freq:0, ms:100}]` with `gap_ms = 20` queues
both entries and reports `queued = 2`. -/
theorem melody_enqueue_spec :
    (∀ (notes : List NoteJson) (gap : ℤ) (s : SysState),
        (melody_handler notes gap s).2.queue
          = s.queue ++ (notes.filter NoteJson.valid).map (NoteJson.entry gap)
        ∧ (melody_handler notes gap s).1 = ((notes.filter NoteJson.valid).length : ℤ)
        ∧ (melody_handler notes gap s).2.stop_now = false)
    ∧ melody_handler [NoteJson.dict 523 200, NoteJson.dict 0 100] 20 ⟨[], true⟩
        = (2, ⟨[(523, 200, 20), (0, 100, 20)], false⟩) := by
  constructor
  · intro notes gap s
    refine ⟨?_, ?_, rfl⟩
    · show s.queue ++ melody_filter gap notes = _
      rw [melody_filter_eq]
    · show ((melody_filter gap notes).length : ℤ) = _
      rw [melody_filter_eq, List.length_map]
  · rfl

/-- C3: enqueuing any non-empty batch of valid notes into an empty queue
and then stopping before playback starts clears exactly that many entries
(`cleared = N`), leaves the queue empty with `stop_now` set, and the `/stop`
handler itself forces the duty to 0. -/
theorem stop_clears_enqueued :
    ∀ (notes : List NoteJson) (gap : ℤ) (s : SysState),
      s.queue = [] →
      notes ≠ [] →
      (∀ n ∈ notes, n.valid = true) →
      (stop_handler (melody_handler notes gap s).2).1 = (notes.length : ℤ)
      ∧ (stop_handler (melody_handler notes gap s).2).2.1 = ⟨[], true⟩
      ∧ finalDuty (stop_handler (melody_handler notes gap s).2).2.2 = some 0 := by
  intro notes gap s hq _hne hv
  refine ⟨?_, rfl, rfl⟩
  show (((s.queue ++ melody_filter gap notes)).length : ℤ) = _
  rw [hq, List.nil_append, melody_filter_length_all_valid gap notes hv]

/-- C3 witness: one valid note enqueued, then stopped. -/
theorem stop_clears_enqueued_witness :
    ((SysState.mk [] false).queue = []
      ∧ [NoteJson.dict 440 100] ≠ []
      ∧ (∀ n ∈ [NoteJson.dict 440 100], n.valid = true))
    ∧ (stop_handler (melody_handler [NoteJson.dict 440 100] 50 ⟨[], false⟩).2).1 = (1 : ℤ)
    ∧ (stop_handler (melody_handler [NoteJson.dict 440 100] 50 ⟨[], false⟩).2).2.1 = ⟨[], true⟩
    ∧ finalDuty (stop_handler (melody_handler [NoteJson.dict 440 100] 50 ⟨[], false⟩).2).2.2
        = some 0 :=
  ⟨⟨rfl, by decide, by decide⟩,
   stop_clears_enqueued [NoteJson.dict 440 100] 50 ⟨[], false⟩ rfl (by decide) (by decide)⟩

lemma pytruncR_of_nonneg (x : ℝ) (h : 0 ≤ x) : pytruncR x = ⌊x⌋ := by
  rw [pytruncR, if_neg (not_lt.mpr h)]

lemma f_now_eq_floor (b : ℤ) (tr vd t : ℚ) :
    f_now b tr vd t = ⌊spec_frame_freq b tr vd t⌋ := by
  have h : (1 : ℝ) + Real.sin (2 * Real.pi * ((VIBRATO_HZ : ℚ) : ℝ) * ((t : ℚ) : ℝ)) * ((vd : ℚ) : ℝ)
      = 1 + ((vd : ℚ) : ℝ) * Real.sin (2 * Real.pi * ((VIBRATO_HZ : ℚ) : ℝ) * ((t : ℚ) : ℝ)) := by
    ring
  rw [f_now, h, pytruncR_of_nonneg _ (le_trans zero_le_one (le_max_left _ _)),
    spec_frame_freq]

lemma note_loop_eq_spec (base : ℤ) (raws : ℕ → ℤ) (sf : ℕ → Bool) :
    ∀ (rem i : ℕ) (np : Option ℚ),
      note_loop base raws sf rem i np = spec_note_loop base raws sf rem i np := by
  intro rem
  induction rem using Nat.strong_induction_on with
  | _ rem ih =>
    intro i np
    cases rem with
    | zero => rw [note_loop, spec_note_loop]
    | succ r =>
      by_cases hsf : sf i
      · simp [note_loop, spec_note_loop, hsf]
      · have h10 : r + 1 - FRAME_MS.toNat < r + 1 := by
          simp only [FRAME_MS, Int.toNat_ofNat]
          omega
        simp only [note_loop, spec_note_loop, hsf, Bool.false_eq_true, if_false,
          f_now_eq_floor]
        rw [ih _ h10]

lemma drives_note_loop_le (base : ℤ) (raws : ℕ → ℤ) (sf : ℕ → Bool) (k : ℕ)
    (hsf : ∀ j, k ≤ j → sf j = true) :
    ∀ (rem i : ℕ) (np : Option ℚ), i ≤ k →
      drives (note_loop base raws sf rem i np) ≤ k - i := by
  intro rem
  induction rem using Nat.strong_induction_on with
  | _ rem ih =>
    intro i np hik
    cases rem with
    | zero =>
      rw [note_loop]
      simp [drives]
    | succ r =>
      by_cases hstop : sf i
      · simp [note_loop, hstop, drives]
      · have hik' : i < k := by
          rcases Nat.lt_or_ge i k with h | h
          · exact h
          · exact absurd (hsf i h) (by simpa using hstop)
        have h10 : r + 1 - FRAME_MS.toNat < r + 1 := by
          simp only [FRAME_MS, Int.toNat_ofNat]
          omega
        simp only [note_loop, hstop, Bool.false_eq_true, if_false, drives]
        have := ih _ h10 (i + 1) (some (light_to_pitch_params np (raws i)).2.2) hik'
        omega

/-- C2: a `/tone` request while a melody is mid-note empties the melody
queue and sets `stop_now`; once `stop_now` holds from check `k` on, the
frame loop drives no frame beyond the `k`-th (it breaks within one control
frame, and the entry trace — which ends with a duty-0 write — silences the
buzzer); and with `stop_now` still set any further dequeued entry is dropped
with a bare `stop_tone()`, so the melody never sounds again. -/
theorem tone_preempts_melody :
    (∀ (freq ms : ℤ) (duty : ℚ) (s : SysState),
        (tone_handler freq ms duty s).2.1 = ⟨[], true⟩)
    ∧ (∀ (base : ℤ) (raws : ℕ → ℤ) (sf : ℕ → Bool) (k : ℕ),
        (∀ j, k ≤ j → sf j = true) →
        ∀ (rem i : ℕ) (np : Option ℚ), i ≤ k →
          drives (note_loop base raws sf rem i np) ≤ k - i)
    ∧ (∀ (freq ms gap : ℤ) (raws : ℕ → ℤ) (sf : ℕ → Bool) (np : Option ℚ),
        melody_entry freq ms gap raws true sf true np = [BuzzEvent.setDuty 0])
    ∧ (∀ (freq ms gap : ℤ) (raws : ℕ → ℤ) (st : Bool) (sf : ℕ → Bool) (np : Option ℚ),
        (melody_entry freq ms gap raws st sf true np).getLast?
          = some (BuzzEvent.setDuty 0)) := by
  refine ⟨fun _ _ _ _ => rfl, drives_note_loop_le, fun _ _ _ _ _ _ => rfl, ?_⟩
  intro f m g raws st sf np
  cases st with
  | true => rfl
  | false =>
    simp only [melody_entry, Bool.false_eq_true, if_false]
    by_cases hfm : f > 0 ∧ m > 0 <;>
      simp [hfm, List.getLast?_concat]

/-- C2 witness: with `stop_now` set from the start (`k = 0`), no frame of a
pending 35 ms note is ever driven. -/
theorem tone_preempts_melody_witness :
    (0 : ℕ) ≤ 0
    ∧ drives (note_loop 440 (fun _ => 0) (fun _ => true) 35 0 none) ≤ 0 - 0 :=
  ⟨le_refl 0,
   tone_preempts_melody.2.1 440 (fun _ => 0) (fun _ => true) 0
     (fun _ _ => rfl) 35 0 none (le_refl 0)⟩

/-- C6: for a dequeued audible entry (`freq > 0`, `ms > 0`) the frame loop
refines the spec's framed loop: each control frame recomputes the pitch
parameters from the freshly smoothed brightness and drives the actuator at
the integral part of `f' = max(1, base_freq * 2^(transpose/12) *
(1 + vibrato_depth * sin(2π * vibrato_hz * t)))` (a value the code's
`int(max(1, ...))` computes exactly, since `f' ≥ 1`) at the fixed duty
32768, breaking early when the CancellationSignal is set. -/
theorem melody_frames_follow_spec :
    (∀ (base : ℤ) (tr vd t : ℚ),
        (1 : ℝ) ≤ spec_frame_freq base tr vd t
        ∧ f_now base tr vd t = ⌊spec_frame_freq base tr vd t⌋)
    ∧ (∀ (base : ℤ) (raws : ℕ → ℤ) (sf : ℕ → Bool) (rem i : ℕ) (np : Option ℚ),
        note_loop base raws sf rem i np = spec_note_loop base raws sf rem i np)
    ∧ (∀ (freq ms gap : ℤ) (raws : ℕ → ℤ) (sf : ℕ → Bool) (sa : Bool) (np : Option ℚ),
        freq > 0 → ms > 0 →
        melody_entry freq ms gap raws false sf sa np
          = spec_note_loop freq raws sf ms.toNat 0 np ++ [BuzzEvent.setDuty 0]
            ++ (if ¬ sa = true ∧ gap > 0 then [] else [BuzzEvent.setDuty 0])) := by
  refine ⟨?_, note_loop_eq_spec, ?_⟩
  · intro base tr vd t
    exact ⟨le_max_left _ _, f_now_eq_floor base tr vd t⟩
  · intro freq ms gap raws sf sa np hf hm
    simp only [melody_entry, Bool.false_eq_true, if_false,
      if_pos (And.intro hf hm), note_loop_eq_spec, List.append_assoc]

/-- C6 witness: a 20 ms note at 440 Hz, never cancelled, with no gap. -/
theorem melody_frames_follow_spec_witness :
    (440 : ℤ) > 0 ∧ (20 : ℤ) > 0
    ∧ melody_entry 440 20 0 (fun _ => 0) false (fun _ => false) false none
        = spec_note_loop 440 (fun _ => 0) (fun _ => false) (20 : ℤ).toNat 0 none
          ++ [BuzzEvent.setDuty 0]
          ++ (if ¬ (false : Bool) = true ∧ (0 : ℤ) > 0 then []
              else [BuzzEvent.setDuty 0]) :=
  ⟨by decide, by decide,
   melody_frames_follow_spec.2.2 440 20 0 (fun _ => 0) (fun _ => false) false none
     (by decide) (by decide)⟩

end PicoOrchestra
